import Mathlib

/-
Verification of the HistomicsDetect training core: a shallow embedding of
`map_outputs` (histomics_detect/models/faster_rcnn.py), `_roialign_coords` and
`roialign` (roialign/roialign.py), and the `FasterRCNN.train_step` method.

Tensor coordinates are modelled over ℚ (the float32 arithmetic of the source
is treated as exact rational arithmetic; the claims checked here concern index
arithmetic, dtypes, control flow and loss formulas, none of which depend on
rounding).  `tf.cast(·, tf.int32)` on floats truncates toward zero and is
modelled by `castInt`.  Dense grids are modelled as total functions from
integer indices; the claims only inspect in-bounds cells.  The dtype rule of
the reshape inside `map_outputs` (whose shape tensor mixes int32 parts with a
float64 true-division result and therefore raises) is modelled by `TfDType`,
`truedivDtype` and `concatDtype`.
-/

namespace HistomicsDetect

/-- A box row `[x, y, w, h]`: upper-left (or center, for anchors) x,y
coordinates, width and height, as in both source files. -/
structure Box where
  x : ℚ
  y : ℚ
  w : ℚ
  h : ℚ
deriving DecidableEq, Repr

/-- Truncation toward zero, the semantics of `tf.cast(float, tf.int32)`. -/
def castInt (q : ℚ) : ℤ := q.num.tdiv q.den

/-- Index of the first `true` in a boolean list, if any. -/
def firstTrue : List Bool → Option ℕ
  | [] => none
  | b :: t => if b then some 0 else (firstTrue t).map (· + 1)

/-- Semantics of `tf.argmax(tf.equal(w, ps))` for a boolean comparison
vector: the index of the first element of `ps` equal to `w`, or `0` when no
element matches (argmax of an all-`false` vector is `0`). -/
def tfArgmax (w : ℤ) (ps : List ℤ) : ℕ :=
  (firstTrue (ps.map (fun p => p == w))).getD 0

/-- The anchor-slot lookup of `map_outputs` (faster_rcnn.py line 45-48):
`index = tf.map_fn(lambda x: tf.argmax(tf.equal(x, anchor_px)),
tf.cast(anchors[:,3], tf.int32))`.  Column 3 of a `[x, y, w, h]` row is the
HEIGHT, so the lookup compares the candidate's truncated height — not its
width — against the `anchor_px` entries. -/
def anchorSlot (a : Box) (anchorPx : List ℤ) : ℕ :=
  tfArgmax (castInt a.h) anchorPx

/-- The gather semantics of `map_outputs` (faster_rcnn.py lines 45-67,
given a last axis successfully reshaped from `d` to `[K, d/K]`,
`K = size(anchor_px)`).

`output` is the raw rank-4 network output grid, modelled as a total function
`(batch, row, col, channel) ↦ value`; `d` is the static size of its last
axis.  Per anchor the source computes the slot `index` from the truncated
height (`anchorSlot`, line 45-48), then
  `px = tf.cast((anchors[:,0]-field/2) / field, tf.int32)`,
  `py = tf.cast((anchors[:,1]-field/2) / field, tf.int32)`
(lines 51-52), and gathers `reshaped[0, py, px, index, :]` (lines 63-67):
channel `c` of slot `index` is raw channel `index * (d/K) + c`.  In the
committed source the gather is dead code — the reshape raises first, see
`mapOutputs` — so this function is the mapping the surrounding code is
written against. -/
def mapOutputsGather (output : ℤ → ℤ → ℤ → ℤ → ℚ) (d : ℕ) (anchors : List Box)
    (anchorPx : List ℤ) (field : ℚ) : List (ℕ → ℚ) :=
  anchors.map (fun a =>
    let index := anchorSlot a anchorPx
    let px := castInt ((a.x - field / 2) / field)
    let py := castInt ((a.y - field / 2) / field)
    fun c => output 0 py px ((index : ℤ) * ((d / anchorPx.length : ℕ) : ℤ) + c))

/-- The tensor dtypes relevant to the shape computation in `map_outputs`'
reshape (faster_rcnn.py lines 55-59). -/
inductive TfDType where
  | int32
  | float64
deriving DecidableEq, Repr

/-- Result dtype of TF2's `/` (`tf.math.truediv`): Python-3 true division
upcasts integer tensors, so `int32 / int32` yields `float64` (and any
`float64` operand stays `float64`). -/
def truedivDtype : TfDType → TfDType → TfDType
  | TfDType.int32, TfDType.int32 => TfDType.float64
  | TfDType.int32, TfDType.float64 => TfDType.float64
  | TfDType.float64, TfDType.int32 => TfDType.float64
  | TfDType.float64, TfDType.float64 => TfDType.float64

/-- Dtype rule of `tf.concat`: all parts must share one dtype, otherwise the
call raises a `TypeError`. -/
def concatDtype : List TfDType → Except String TfDType
  | [] => Except.error "TypeError: tf.concat of no tensors"
  | dt :: ds =>
    if ds.all (fun x => x == dt) then Except.ok dt
    else Except.error "TypeError: tf.concat requires matching dtypes"

/-- Dtypes of the three parts concatenated into the reshape's shape tensor at
faster_rcnn.py lines 55-59: `tf.shape(output)[0:-1]` (int32),
`[tf.size(anchor_px)]` (int32), and
`[tf.shape(output)[-1] / tf.size(anchor_px)]` — a true division of two int32
scalars, hence float64. -/
def reshapeShapeDtypes : List TfDType :=
  [TfDType.int32, TfDType.int32, truedivDtype TfDType.int32 TfDType.int32]

/-- Embedding of `map_outputs(output, anchors, anchor_px, field)` from
`histomics_detect/models/faster_rcnn.py`, as committed.

Lines 45-52 (slot lookup and cell coordinates) execute; the reshape at lines
55-59 then builds its shape tensor by concatenating int32 parts with the
float64 result of an int32/int32 true division, which raises a `TypeError`
under TF2 before the gather runs.  On the (dead) success path the function
would return `mapOutputsGather`. -/
def mapOutputs (output : ℤ → ℤ → ℤ → ℤ → ℚ) (d : ℕ) (anchors : List Box)
    (anchorPx : List ℤ) (field : ℚ) : Except String (List (ℕ → ℚ)) :=
  match concatDtype reshapeShapeDtypes with
  | Except.error e => Except.error e
  | Except.ok _ => Except.ok (mapOutputsGather output d anchors anchorPx field)

/-- Embedding of `_roialign_coords(box, n_points)` from `roialign/roialign.py`.

The source builds `indices = tf.range(0, n_points)`, spacings
`delta = size / n_points` for each axis, per-axis offsets
`delta/2 + delta*indices`, combines them by an outer sum into an
`n_points × n_points × 2` array with the y offset varying along the first
axis, flattens row-major, and adds the box corner `box[0:2]`. -/
def roialignCoords (box : Box) (nPoints : ℕ) : List (ℚ × ℚ) :=
  let indices : List ℚ := (List.range nPoints).map (fun i : ℕ => (i : ℚ))
  let deltaWidth := box.w / (nPoints : ℚ)
  let deltaHeight := box.h / (nPoints : ℚ)
  let xOffset := indices.map (fun i => deltaWidth / 2 + deltaWidth * i)
  let yOffset := indices.map (fun i => deltaHeight / 2 + deltaHeight * i)
  let offsets := (yOffset.map (fun yo => xOffset.map (fun xo => (xo, yo)))).flatten
  offsets.map (fun p => (p.1 + box.x, p.2 + box.y))

/-- Splits a list into consecutive chunks of length `k` (the last chunk may be
shorter); models a tensor reshape that introduces a new leading axis. -/
def chunkList (k : ℕ) (l : List α) : List (List α) :=
  match l with
  | [] => []
  | x :: xs =>
    if k = 0 then [] else (x :: xs).take k :: chunkList k ((x :: xs).drop k)
termination_by l.length
decreasing_by
  simp only [List.length_drop, List.length_cons]
  omega

/-- Embedding of `roialign(features, boxes, field, pool, tiles)` from
`roialign/roialign.py`.

`tfa.image.interpolate_bilinear` is an external library collaborator; it is
applied pointwise to each query coordinate and is modelled by the function
argument `interp`, returning the per-channel interpolated values at one query
point.  The source vectorizes `_roialign_coords` over the boxes with
`n_points = tiles*pool`, converts to feature-map coordinates via
`(offsets - field/2) / field`, flattens all boxes' points into one list for a
single batched interpolation call, and reshapes the result to
`[num_boxes, pool*tiles, pool*tiles, channels]`. -/
def roialign (interp : ℚ × ℚ → List ℚ) (boxes : List Box) (field : ℚ)
    (pool : ℕ) (tiles : ℕ) : List (List (List (List ℚ))) :=
  let offsets := boxes.map (fun b => roialignCoords b (tiles * pool))
  let offsets := offsets.map
    (List.map (fun p : ℚ × ℚ => ((p.1 - field / 2) / field, (p.2 - field / 2) / field)))
  let flat := offsets.flatten
  let interpolated := flat.map interp
  chunkList (pool * tiles) (chunkList (pool * tiles) interpolated)

/-- Errors a training step can raise: a loss computation failing, or Python
name resolution failing on a free variable (a `NameError`). -/
inductive StepError where
  | lossFailure : String → StepError
  | nameError : String → StepError
deriving DecidableEq, Repr

/-- One `self.optimizer.apply_gradients(zip(tape.gradient(loss, ws), ws))`
call, recorded as the targeted weight set together with the scalar loss the
gradient was taken of. -/
structure ApplyEvent where
  target : String
  loss : ℚ
deriving DecidableEq, Repr

/-- A module-level (global-scope) binding named `model`, as Python name
resolution would find it; `train_step` line
`align_reg_loss = model.loss[1](align_reg_label, align_reg)` reads the free
name `model`, not `self`. -/
structure GlobalModel (T : Type) where
  loss1 : T → T → Option ℚ

/-- Names of the running metrics created in `FasterRCNN.__init__`: the four
explicitly named metrics plus the default names of
`tf.keras.metrics.TruePositives/FalseNegatives/FalsePositives`. -/
def metricNames : List String :=
  ["mean_iou_rpn", "mean_iou_align", "auc_roc", "pr_roc",
   "true_positives", "false_negatives", "false_positives"]

/-- The weighted proposal loss line of `train_step`:
`rpn_obj_loss / 256 + rpn_reg_loss * self.lmbda /
 tf.cast(tf.shape(self.anchors)[0], tf.float32)`. -/
def rpnTotalLoss (rpnObjLoss rpnRegLoss lmbda : ℚ) (anchorCount : ℕ) : ℚ :=
  rpnObjLoss / 256 + rpnRegLoss * lmbda / (anchorCount : ℚ)

/-- Configuration and collaborators of a `FasterRCNN` model instance.  The
type parameter `T` stands for opaque tensors flowing between the external
collaborators (images, feature maps, score tensors, regression targets);
the spec treats the backbone, networks, box transforms, anchor
filtering/sampling and the loss objects as black boxes, so they appear here
as function-valued fields.  The two loss objects `self.loss[0]`/`self.loss[1]`
may fail, modelling a raising loss computation.  The raw proposal-network
output grids are concrete (`ℤ → ℤ → ℤ → ℤ → ℚ`) so that the real
`mapOutputsGather` embedding is applied to them, and bilinear interpolation on the
feature tensor is exposed as a per-point function so that the real `roialign`
embedding is applied. -/
structure Config (T : Type) where
  anchors : List Box
  anchorPx : List ℤ
  field : ℚ
  lmbda : ℚ
  pool : ℕ
  tiles : ℕ
  objDim : ℕ
  regDim : ℕ
  toTensor : T → T
  preprocess : T → T
  expandDims : T → T
  filterAnchors : T → List Box → List Box × List Box
  sampleAnchors : List Box → List Box → List Box × List Box
  backbone : T → T
  rpnetwork : T → (ℤ → ℤ → ℤ → ℤ → ℚ) × (ℤ → ℤ → ℤ → ℤ → ℚ)
  softmax : List (ℕ → ℚ) → T
  concatT : T → T → T
  oneHot : List ℚ → T
  parameterize : List Box → T → T
  loss0 : T → T → Option ℚ
  loss1 : T → T → Option ℚ
  toT : List (ℕ → ℚ) → T
  unparameterize : List (ℕ → ℚ) → List Box → List Box
  interpBilinear : T → (ℚ × ℚ → List ℚ)
  fastrcnn : List (List (List (List ℚ))) → T
  unparameterizeT : T → List Box → T
  metricResult : String → ℚ

/-- Embedding of `FasterRCNN.train_step` from
`histomics_detect/models/faster_rcnn.py`.

The source's statements are transcribed in order: unpack and convert the
ragged ground-truth boxes, normalize and batch the image, filter and sample
anchors, run backbone and proposal network, map both outputs to 2-D anchor
arrays, build labels and proposal losses, form the weighted total, refine the
positive proposal boxes through `roialign` and the fast r-cnn head, compute
the refinement loss (via the free name `model`, passed here as the
`globalModel` argument since it is not a local), and only then perform the
three gradient/apply calls, which are recorded as `ApplyEvent`s.  The
metric-bank updates at the end of the source (IoU reductions and
`update_state` calls) touch only the external metric objects, excluded from
the spec's core; their reported values are abstracted by `cfg.metricResult`.
The optional `sample_weight` component of `data` is unpacked and never used
by the source, so it is omitted.  The mapping stage is modelled by
`mapOutputsGather`, the gather semantics of `map_outputs`: the committed
reshape dtype defect (see `mapOutputs`) aborts every real step at its first
mapping call and is settled separately at the mapping level; keeping it out of the
step embedding lets the step's loss, update and reporting logic — everything
downstream of the mapping — be analyzed on completed runs.  Returns the
result dict (or the error the step raised) together with the list of
optimizer-apply events that occurred. -/
def trainStep (cfg : Config T) (globalModel : Option (GlobalModel T)) (rgb : T)
    (boxesRagged : T) :
    Except StepError (List (String × ℚ)) × List ApplyEvent :=
  let boxes := cfg.toTensor boxesRagged
  let norm := cfg.expandDims (cfg.preprocess rgb)
  let filtered := cfg.filterAnchors boxes cfg.anchors
  let sampled := cfg.sampleAnchors filtered.1 filtered.2
  let positiveAnchors := sampled.1
  let negativeAnchors := sampled.2
  let features := cfg.backbone norm
  let output := cfg.rpnetwork features
  let rpnObjPositive := cfg.softmax
    (mapOutputsGather output.1 cfg.objDim positiveAnchors cfg.anchorPx cfg.field)
  let rpnObjNegative := cfg.softmax
    (mapOutputsGather output.1 cfg.objDim negativeAnchors cfg.anchorPx cfg.field)
  let rpnReg := mapOutputsGather output.2 cfg.regDim positiveAnchors cfg.anchorPx cfg.field
  let rpnObjLabels : List ℚ :=
    List.replicate positiveAnchors.length 1 ++ List.replicate negativeAnchors.length 0
  let rpnRegLabel := cfg.parameterize positiveAnchors boxes
  match cfg.loss0 (cfg.concatT rpnObjPositive rpnObjNegative) (cfg.oneHot rpnObjLabels) with
  | none => (Except.error (StepError.lossFailure "rpn_obj_loss"), [])
  | some rpnObjLoss =>
    match cfg.loss1 rpnRegLabel (cfg.toT rpnReg) with
    | none => (Except.error (StepError.lossFailure "rpn_reg_loss"), [])
    | some rpnRegLoss =>
      let rpnTotal := rpnTotalLoss rpnObjLoss rpnRegLoss cfg.lmbda cfg.anchors.length
      let rpnBoxes := cfg.unparameterize rpnReg positiveAnchors
      let rpnBoxesPositive := (cfg.filterAnchors boxes rpnBoxes).1
      let interpolated :=
        roialign (cfg.interpBilinear features) rpnBoxesPositive cfg.field cfg.pool cfg.tiles
      let alignReg := cfg.fastrcnn interpolated
      let _alignBoxes := cfg.unparameterizeT alignReg rpnBoxesPositive
      let alignRegLabel := cfg.parameterize rpnBoxesPositive boxes
      match globalModel with
      | none => (Except.error (StepError.nameError "model"), [])
      | some m =>
        match m.loss1 alignRegLabel alignReg with
        | none => (Except.error (StepError.lossFailure "align_reg_loss"), [])
        | some alignRegLoss =>
          let applies := [ApplyEvent.mk "backbone" rpnTotal,
                          ApplyEvent.mk "rpnetwork" rpnTotal,
                          ApplyEvent.mk "fastrcnn" alignRegLoss]
          let losses := [("rpn_objectness", rpnObjLoss), ("rpn_regression", rpnRegLoss),
                         ("align_regression", alignRegLoss)]
          let metrics := metricNames.map (fun n => (n, cfg.metricResult n))
          (Except.ok (losses ++ metrics), applies)

/-! Helper lemmas about `castInt`, `firstTrue` and `tfArgmax`. -/

theorem castInt_intCast (n : ℤ) : castInt (n : ℚ) = n := by
  simp [castInt, Rat.num_intCast, Rat.den_intCast]

theorem castInt_eq_floor_of_nonneg (q : ℚ) (h : 0 ≤ q) : castInt q = ⌊q⌋ := by
  rw [Rat.floor_def, castInt, Int.tdiv_eq_ediv (Rat.num_nonneg.mpr h) (by positivity)]

theorem castInt_eq_floor_of_floor_nonneg (q : ℚ) (h : 0 ≤ ⌊q⌋) : castInt q = ⌊q⌋ := by
  refine castInt_eq_floor_of_nonneg q ?_
  calc (0 : ℚ) ≤ (⌊q⌋ : ℚ) := by exact_mod_cast h
    _ ≤ q := Int.floor_le q

theorem firstTrue_eq_none_iff (l : List Bool) : firstTrue l = none ↔ ∀ b ∈ l, b = false := by
  induction l with
  | nil => simp [firstTrue]
  | cons b t ih =>
    by_cases hb : b <;> simp [firstTrue, hb, ih]

theorem tfArgmax_getElem (l : List ℤ) (i : ℕ) (h : i < l.length) (hnd : l.Nodup) :
    tfArgmax l[i] l = i := by
  induction l generalizing i with
  | nil => simp at h
  | cons a t ih =>
    cases i with
    | zero => simp [tfArgmax, firstTrue]
    | succ j =>
      have hj : j < t.length := by simpa using h
      have hne : a ≠ t[j] := by
        intro he
        exact (List.nodup_cons.mp hnd).1 (he ▸ List.getElem_mem hj)
      have ht : tfArgmax t[j] t = j := ih j hj (List.nodup_cons.mp hnd).2
      simp only [List.getElem_cons_succ, tfArgmax, List.map_cons, firstTrue] at ht ⊢
      rw [if_neg (by simpa using hne)]
      cases hft : firstTrue (t.map (fun p => p == t[j])) with
      | none =>
        exfalso
        have := (firstTrue_eq_none_iff _).mp hft (t[j] == t[j])
          (List.mem_map.mpr ⟨t[j], List.getElem_mem hj, rfl⟩)
        simp at this
      | some m =>
        rw [hft] at ht
        simp only [Option.getD_some] at ht
        simp [ht]

/-- C1 counterexample: the candidate at `(48, 48)` with width `32` — exactly
`anchor_px[0]` — and height `64`, in the in-bounds cell `(1, 1)` of a marker
grid, satisfies the claim's hypotheses, yet `map_outputs` does not return the
claimed slice `output[0,1,1,0,:]` (whose channel-0 marker is `110`): it
raises the reshape dtype `TypeError`, and even the gather of its dead
post-reshape code selects slot `1`, keyed by the height `anchors[:,3]`,
reading marker `112`. -/
theorem mapOutputs_width_match_counterexample :
    mapOutputs (fun b y x ch => ((1000 * b + 100 * y + 10 * x + ch : ℤ) : ℚ)) 4
        [Box.mk 48 48 32 64] [32, 64] 32 =
      Except.error "TypeError: tf.concat requires matching dtypes" ∧
    (mapOutputsGather (fun b y x ch => ((1000 * b + 100 * y + 10 * x + ch : ℤ) : ℚ)) 4
        [Box.mk 48 48 32 64] [32, 64] 32).get ⟨0, by simp [mapOutputsGather]⟩ 0 = 112 ∧
    (112 : ℚ) ≠ 110 := by
  refine ⟨rfl, ?_, by norm_num⟩
  have hidx : anchorSlot (Box.mk 48 48 32 64) [32, 64] = 1 := by decide
  have hpy : castInt ((48 - (32 : ℚ) / 2) / 32) = 1 := by
    rw [castInt_eq_floor_of_nonneg _ (by norm_num)]; norm_num
  simp [mapOutputsGather, hidx, hpy]

/-- C1 amended: for every candidate whose height exactly equals
`anchor_px[k]` (sizes distinct) and whose computed cell
`(row, col) = (⌊(y - field/2)/field⌋, ⌊(x - field/2)/field⌋)` is in bounds,
the committed `map_outputs` raises the reshape dtype `TypeError` instead of
returning, and the gather of its dead post-reshape code (`mapOutputsGather`,
the mapping the surrounding code is written against) returns at row `i`
exactly the slice `output[0, row, col, k, :]` of the grid with its last axis
reshaped to `[K, channels_per_output]` — the slot being keyed on the height
column `anchors[:,3]`, not the width. -/
theorem mapOutputs_height_keyed_slice (output : ℤ → ℤ → ℤ → ℤ → ℚ) (d : ℕ)
    (anchors : List Box) (anchorPx : List ℤ) (field : ℚ) (i k : ℕ)
    (hi : i < anchors.length) (hk : k < anchorPx.length) (hnd : anchorPx.Nodup)
    (hw : anchors[i].h = (anchorPx[k] : ℚ)) (row col : ℤ)
    (hrow : row = ⌊(anchors[i].y - field / 2) / field⌋)
    (hcol : col = ⌊(anchors[i].x - field / 2) / field⌋)
    (hrow0 : 0 ≤ row) (hcol0 : 0 ≤ col)
    (hi' : i < (mapOutputsGather output d anchors anchorPx field).length) :
    mapOutputs output d anchors anchorPx field =
      Except.error "TypeError: tf.concat requires matching dtypes" ∧
    ∀ c : ℕ, (mapOutputsGather output d anchors anchorPx field).get ⟨i, hi'⟩ c =
      output 0 row col ((k : ℤ) * ((d / anchorPx.length : ℕ) : ℤ) + (c : ℤ)) := by
  refine ⟨rfl, ?_⟩
  intro c
  have hget : (mapOutputsGather output d anchors anchorPx field).get ⟨i, hi'⟩ =
      (fun a : Box =>
        fun c : ℕ => output 0 (castInt ((a.y - field / 2) / field))
          (castInt ((a.x - field / 2) / field))
          ((anchorSlot a anchorPx : ℤ) *
            ((d / anchorPx.length : ℕ) : ℤ) + (c : ℤ))) anchors[i] := by
    simp [mapOutputsGather]
  rw [hget]
  have hidx : anchorSlot anchors[i] anchorPx = k := by
    simp only [anchorSlot]
    rw [hw, castInt_intCast]
    exact tfArgmax_getElem anchorPx k hk hnd
  have hpy : castInt ((anchors[i].y - field / 2) / field) = row := by
    rw [castInt_eq_floor_of_floor_nonneg _ (hrow ▸ hrow0), hrow]
  have hpx : castInt ((anchors[i].x - field / 2) / field) = col := by
    rw [castInt_eq_floor_of_floor_nonneg _ (hcol ▸ hcol0), hcol]
  simp only [hidx, hpy, hpx]

/-- Concrete instantiation of `mapOutputs_height_keyed_slice`: the candidate
at `(48, 48)` with width `7` and height `32 = anchor_px[0]` sits in cell
`(1, 1)`; `map_outputs` raises, and the dead-path gather reads slot `0` of
that cell — keyed by the height, the width `7` playing no role. -/
theorem mapOutputs_height_keyed_slice_witness :
    mapOutputs (fun b y x ch => ((1000 * b + 100 * y + 10 * x + ch : ℤ) : ℚ)) 4
        [Box.mk 48 48 7 32] [32, 64] 32 =
      Except.error "TypeError: tf.concat requires matching dtypes" ∧
    ∀ c : ℕ, (mapOutputsGather
        (fun b y x ch => ((1000 * b + 100 * y + 10 * x + ch : ℤ) : ℚ)) 4
        [Box.mk 48 48 7 32] [32, 64] 32).get ⟨0, by simp [mapOutputsGather]⟩ c =
      (fun b y x ch => ((1000 * b + 100 * y + 10 * x + ch : ℤ) : ℚ)) 0 1 1
        ((0 : ℤ) * ((4 / ([32, 64] : List ℤ).length : ℕ) : ℤ) + (c : ℤ)) :=
  mapOutputs_height_keyed_slice
    (fun b y x ch => ((1000 * b + 100 * y + 10 * x + ch : ℤ) : ℚ)) 4
    [Box.mk 48 48 7 32] [32, 64] 32 0 0 (by decide) (by decide) (by decide)
    (by norm_num) 1 1
    (by norm_num) (by norm_num) (by decide) (by decide)
    (by simp [mapOutputsGather])

/-- C2 (code bug): `map_outputs`, as committed, raises the reshape dtype
`TypeError` on every input — the int32 shape parts are concatenated with the
float64 result of the int32/int32 true division at lines 55-59 — so the
first mapping call of `train_step` (faster_rcnn.py line 136) aborts the step
before any loss computation.  Execution never reaches the refinement-loss
line 169, whose free-variable read of `model` (instead of `self`) is a real
but unreachable defect. -/
theorem mapOutputs_always_type_error (output : ℤ → ℤ → ℤ → ℤ → ℚ) (d : ℕ)
    (anchors : List Box) (anchorPx : List ℤ) (field : ℚ) :
    mapOutputs output d anchors anchorPx field =
      Except.error "TypeError: tf.concat requires matching dtypes" := rfl

/-- C5: the explicit candidate at `(48, 48)` with width `33`, matching no
entry of `anchor_px = [32, 64]`, makes `map_outputs` raise an explicit error
rather than silently return data gathered from a wrong anchor slot.  (The
raise is the unconditional reshape dtype `TypeError` of lines 55-59, which
fires for every input, matched or not: the width mismatch itself is never
checked by the source, whose slot lookup moreover reads the height column
`anchors[:,3]`.) -/
theorem mapOutputs_mismatch_raises :
    castInt (Box.mk 48 48 33 33).w ∉ ([32, 64] : List ℤ) ∧
    mapOutputs (fun b y x ch => ((1000 * b + 100 * y + 10 * x + ch : ℤ) : ℚ)) 4
        [Box.mk 48 48 33 33] [32, 64] 32 =
      Except.error "TypeError: tf.concat requires matching dtypes" :=
  ⟨by decide, rfl⟩

/-- C10 counterexample: two candidates with the SAME width `32` (so equal
truncated widths) but heights `32` and `64` select DIFFERENT anchor slots
against `anchor_px = [32, 64]`: the slot lookup (faster_rcnn.py line 48)
compares `anchors[:,3]`, the height, not the width. -/
theorem anchorSlot_equal_width_counterexample :
    castInt (Box.mk 48 48 32 32).w = castInt (Box.mk 48 48 32 64).w ∧
    anchorSlot (Box.mk 48 48 32 32) [32, 64] = 0 ∧
    anchorSlot (Box.mk 48 48 32 64) [32, 64] = 1 :=
  ⟨rfl, by decide, by decide⟩

/-- C10 amended: the anchor-slot lookup of `map_outputs` compares the
candidate HEIGHT cast (truncated) to a 32-bit integer against the integer
`anchor_px` entries; the width is never consulted.  Two candidates at the
same position whose heights share a truncation — whatever their widths —
select the same slot and are mapped to identical rows by the gather. -/
theorem mapOutputs_truncated_height_same_slot (output : ℤ → ℤ → ℤ → ℤ → ℚ)
    (d : ℕ) (anchorPx : List ℤ) (field : ℚ) (a b : Box)
    (hx : a.x = b.x) (hy : a.y = b.y) (hh : castInt a.h = castInt b.h) :
    anchorSlot a anchorPx = anchorSlot b anchorPx ∧
    mapOutputsGather output d [a] anchorPx field =
      mapOutputsGather output d [b] anchorPx field := by
  refine ⟨by simp only [anchorSlot, hh], ?_⟩
  simp [mapOutputsGather, anchorSlot, hx, hy, hh]

/-- Concrete instantiation of `mapOutputs_truncated_height_same_slot`:
heights `32.0` and `32.9 = 329/10` truncate to the same integer `32`, and
the widths `5` and `99` differ, yet both candidates select the same slot and
map to the same row. -/
theorem mapOutputs_truncated_height_same_slot_witness :
    anchorSlot (Box.mk 48 48 5 32) [32, 64] =
      anchorSlot (Box.mk 48 48 99 (329/10)) [32, 64] ∧
    mapOutputsGather (fun b y x ch => ((b + y + x + ch : ℤ) : ℚ)) 4
        [Box.mk 48 48 5 32] [32, 64] 32 =
      mapOutputsGather (fun b y x ch => ((b + y + x + ch : ℤ) : ℚ)) 4
        [Box.mk 48 48 99 (329/10)] [32, 64] 32 :=
  mapOutputs_truncated_height_same_slot
    (fun b y x ch => ((b + y + x + ch : ℤ) : ℚ))
    4 [32, 64] 32 (Box.mk 48 48 5 32) (Box.mk 48 48 99 (329/10)) rfl rfl (by
      have h1 : castInt (32 : ℚ) = 32 := by decide
      have h2 : castInt (329/10 : ℚ) = 32 := by
        rw [castInt_eq_floor_of_nonneg _ (by norm_num)]; norm_num
      simp only [h1, h2])

/-! Helper lemmas for `roialignCoords`, `chunkList` and `roialign`. -/

theorem flatten_getElem?_uniform {α : Type*} (ls : List (List α)) (n : ℕ)
    (hn : ∀ l ∈ ls, l.length = n) (k j : ℕ) (hj : j < n) :
    ls.flatten[k * n + j]? = ls[k]?.bind (fun l => l[j]?) := by
  induction ls generalizing k with
  | nil => simp
  | cons a t ih =>
    have ha : a.length = n := hn a (List.mem_cons_self a t)
    cases k with
    | zero =>
      simp only [List.flatten_cons, Nat.zero_mul, Nat.zero_add]
      rw [List.getElem?_append, if_pos (by omega)]
      simp
    | succ m =>
      simp only [List.flatten_cons]
      rw [List.getElem?_append_right (by rw [ha, Nat.succ_mul]; omega)]
      have harith : (m + 1) * n + j - a.length = m * n + j := by
        rw [ha, Nat.succ_mul]; omega
      rw [harith, ih (fun l hl => hn l (List.mem_cons_of_mem a hl)) m]
      simp

theorem roialignCoords_eq_flatten (box : Box) (n : ℕ) :
    roialignCoords box n =
      ((List.range n).map (fun kk : ℕ => (List.range n).map (fun jj : ℕ =>
        (box.w / (n : ℚ) / 2 + box.w / (n : ℚ) * (jj : ℚ) + box.x,
         box.h / (n : ℚ) / 2 + box.h / (n : ℚ) * (kk : ℚ) + box.y)))).flatten := by
  simp only [roialignCoords, List.map_flatten, List.map_map]
  refine congrArg List.flatten (List.map_congr_left ?_)
  intro kk _
  simp only [Function.comp_apply]
  rw [List.map_map]
  rfl

theorem roialignCoords_length (box : Box) (n : ℕ) :
    (roialignCoords box n).length = n * n := by
  rw [roialignCoords_eq_flatten, List.length_flatten, List.map_map]
  have hconst : (List.length ∘ fun kk : ℕ => (List.range n).map
      (fun jj : ℕ => (box.w / (n : ℚ) / 2 + box.w / (n : ℚ) * (jj : ℚ) + box.x,
        box.h / (n : ℚ) / 2 + box.h / (n : ℚ) * (kk : ℚ) + box.y))) =
      fun _ : ℕ => n := by
    funext kk
    simp
  rw [hconst, List.map_const', List.sum_replicate, smul_eq_mul, List.length_range]

theorem roialignCoords_getElem? (box : Box) (n j k : ℕ) (hj : j < n) (hk : k < n) :
    (roialignCoords box n)[k * n + j]? =
      some (box.x + box.w * ((j : ℚ) + 1 / 2) / (n : ℚ),
            box.y + box.h * ((k : ℚ) + 1 / 2) / (n : ℚ)) := by
  have hn : (0 : ℚ) < (n : ℚ) := by
    have : 0 < n := by omega
    exact_mod_cast this
  rw [roialignCoords_eq_flatten,
    flatten_getElem?_uniform _ n (by
      intro l hl
      obtain ⟨kk, _, rfl⟩ := List.mem_map.mp hl
      simp only [List.length_map, List.length_range]) k j hj]
  rw [List.getElem?_map, List.getElem?_range hk]
  simp only [Option.map_some', Option.some_bind]
  rw [List.getElem?_map, List.getElem?_range hj]
  simp only [Option.map_some', Option.some_inj, Prod.mk.injEq]
  constructor
  · field_simp
    ring
  · field_simp
    ring

theorem chunkList_shape {α : Type*} (k m : ℕ) (hk : 0 < k) :
    ∀ l : List α, l.length = m * k →
      (chunkList k l).length = m ∧ ∀ c ∈ chunkList k l, c.length = k := by
  induction m with
  | zero =>
    intro l hl
    have : l = [] := List.eq_nil_of_length_eq_zero (by omega)
    subst this
    simp [chunkList]
  | succ m ih =>
    intro l hl
    match l with
    | [] => simp [Nat.succ_mul] at hl; omega
    | x :: xs =>
      rw [chunkList, if_neg (by omega)]
      have hlen : (x :: xs).length = (m + 1) * k := hl
      have htake : ((x :: xs).take k).length = k := by
        rw [List.length_take]
        rw [hlen, Nat.succ_mul]
        omega
      have hdrop : ((x :: xs).drop k).length = m * k := by
        rw [List.length_drop, hlen, Nat.succ_mul]
        omega
      obtain ⟨ihl, ihm⟩ := ih ((x :: xs).drop k) hdrop
      refine ⟨by simp [ihl], ?_⟩
      intro c hc
      rcases List.mem_cons.mp hc with hc | hc
      · rw [hc, htake]
      · exact ihm c hc

theorem chunkList_mem_subset {α : Type*} (k : ℕ) (l : List α) :
    ∀ c ∈ chunkList k l, ∀ x ∈ c, x ∈ l := by
  induction l using chunkList.induct k with
  | case1 => simp [chunkList]
  | case2 x xs hk => simp [chunkList, hk]
  | case3 x xs hk ih =>
    rw [chunkList, if_neg hk]
    intro c hc y hy
    rcases List.mem_cons.mp hc with hc | hc
    · exact List.take_subset k (x :: xs) (hc ▸ hy)
    · exact List.drop_subset k (x :: xs) (ih c hc y hy)

theorem chunk2_shape {β : Type*} (n m : ℕ) (hn : 0 < n) (fl : List β)
    (hfl : fl.length = m * n * n) :
    (chunkList n (chunkList n fl)).length = m ∧
    ∀ g ∈ chunkList n (chunkList n fl), g.length = n ∧
      ∀ r ∈ g, r.length = n ∧ ∀ v ∈ r, v ∈ fl := by
  have h1 := chunkList_shape n (m * n) hn fl (by rw [hfl])
  have h2 := chunkList_shape n m hn (chunkList n fl) h1.1
  refine ⟨h2.1, ?_⟩
  intro g hg
  refine ⟨h2.2 g hg, ?_⟩
  intro r hr
  have hrin := chunkList_mem_subset n (chunkList n fl) g hg r hr
  exact ⟨h1.2 r hrin, fun v hv => chunkList_mem_subset n fl r hrin v hv⟩

/-- C3: the sample-coordinate generation of `roialign`
(`_roialign_coords` called with `n_points = tiles*pool`) places the
interpolation point with grid indices `(j, k)` at
`(x + w*(j + 0.5)/(pool*tiles), y + h*(k + 0.5)/(pool*tiles))`; with
`pool = 1` and `tiles = 1` the single point `(j, k) = (0, 0)` is the box
center `(x + w/2, y + h/2)`. -/
theorem roialign_sample_point (box : Box) (pool tiles : ℕ) (j k : ℕ)
    (hj : j < pool * tiles) (hk : k < pool * tiles) :
    (roialignCoords box (tiles * pool))[k * (pool * tiles) + j]? =
      some (box.x + box.w * ((j : ℚ) + 1 / 2) / ((pool * tiles : ℕ) : ℚ),
            box.y + box.h * ((k : ℚ) + 1 / 2) / ((pool * tiles : ℕ) : ℚ)) := by
  rw [Nat.mul_comm tiles pool]
  exact roialignCoords_getElem? box (pool * tiles) j k hj hk

/-- Concrete instantiation of `roialign_sample_point`: for the box with
corner `(2, 3)`, width `4`, height `6` and `pool = tiles = 1`, the single
sampled point is the box center — the instantiated right-hand side is
`(2 + 4*(0 + 1/2)/1, 3 + 6*(0 + 1/2)/1) = (4, 6)`. -/
theorem roialign_sample_point_witness :
    (roialignCoords (Box.mk 2 3 4 6) (1 * 1))[0 * (1 * 1) + 0]? =
      some ((Box.mk 2 3 4 6).x +
              (Box.mk 2 3 4 6).w * (((0 : ℕ) : ℚ) + 1 / 2) / ((1 * 1 : ℕ) : ℚ),
            (Box.mk 2 3 4 6).y +
              (Box.mk 2 3 4 6).h * (((0 : ℕ) : ℚ) + 1 / 2) / ((1 * 1 : ℕ) : ℚ)) :=
  roialign_sample_point (Box.mk 2 3 4 6) 1 1 0 0 (by decide) (by decide)

/-- C7: on a feature grid with `C` channels (every interpolated point yields
`C` channel values) and any list of `N` boxes, `roialign` returns a tensor of
shape `[N, pool*tiles, pool*tiles, C]`; in particular `N = 0` yields the
empty tensor of that trailing shape without error. -/
theorem roialign_shape (interp : ℚ × ℚ → List ℚ) (boxes : List Box) (field : ℚ)
    (pool tiles C : ℕ) (hp : 0 < pool) (ht : 0 < tiles)
    (hC : ∀ p, (interp p).length = C) :
    (roialign interp boxes field pool tiles).length = boxes.length ∧
    (∀ g ∈ roialign interp boxes field pool tiles,
      g.length = pool * tiles ∧
      ∀ r ∈ g, r.length = pool * tiles ∧ ∀ v ∈ r, v.length = C) ∧
    (boxes = [] → roialign interp boxes field pool tiles = []) := by
  have hro : roialign interp boxes field pool tiles =
      chunkList (pool * tiles) (chunkList (pool * tiles)
        ((((boxes.map (fun b => roialignCoords b (tiles * pool))).map
          (List.map (fun p : ℚ × ℚ =>
            ((p.1 - field / 2) / field, (p.2 - field / 2) / field)))).flatten).map
          interp)) := rfl
  have hfl : ((((boxes.map (fun b => roialignCoords b (tiles * pool))).map
      (List.map (fun p : ℚ × ℚ =>
        ((p.1 - field / 2) / field, (p.2 - field / 2) / field)))).flatten).map
      interp).length = boxes.length * (pool * tiles) * (pool * tiles) := by
    rw [List.length_map, List.length_flatten, List.map_map, List.map_map]
    have hc : ((List.length ∘ List.map (fun p : ℚ × ℚ =>
        ((p.1 - field / 2) / field, (p.2 - field / 2) / field))) ∘
          fun b => roialignCoords b (tiles * pool)) =
        fun _ : Box => (pool * tiles) * (pool * tiles) := by
      funext b
      simp only [Function.comp_apply, List.length_map, roialignCoords_length,
        Nat.mul_comm tiles pool]
    rw [hc, List.map_const', List.sum_replicate, smul_eq_mul]
    ring
  have hv : ∀ v ∈ (((boxes.map (fun b => roialignCoords b (tiles * pool))).map
      (List.map (fun p : ℚ × ℚ =>
        ((p.1 - field / 2) / field, (p.2 - field / 2) / field)))).flatten).map
      interp, v.length = C := by
    intro v hvm
    obtain ⟨p, _, rfl⟩ := List.mem_map.mp hvm
    exact hC p
  obtain ⟨hL, hM⟩ := chunk2_shape (pool * tiles) boxes.length
    (Nat.mul_pos hp ht) _ hfl
  refine ⟨hro ▸ hL, fun g hg => ?_, fun h => ?_⟩
  · rw [hro] at hg
    obtain ⟨hgl, hrs⟩ := hM g hg
    exact ⟨hgl, fun r hr =>
      ⟨(hrs r hr).1, fun v hvm => hv v ((hrs r hr).2 v hvm)⟩⟩
  · subst h
    simp [roialign, chunkList]

/-- Concrete instantiation of `roialign_shape`: one box, `pool = tiles = 1`,
two channels per point. -/
theorem roialign_shape_witness :
    (roialign (fun _ => [5, 9]) [Box.mk 0 0 1 1] 1 1 1).length =
      [Box.mk 0 0 1 1].length ∧
    (∀ g ∈ roialign (fun _ => [5, 9]) [Box.mk 0 0 1 1] 1 1 1,
      g.length = 1 * 1 ∧ ∀ r ∈ g, r.length = 1 * 1 ∧ ∀ v ∈ r, v.length = 2) ∧
    ([Box.mk 0 0 1 1] = ([] : List Box) →
      roialign (fun _ => [5, 9]) [Box.mk 0 0 1 1] 1 1 1 = []) :=
  roialign_shape (fun _ => [5, 9]) [Box.mk 0 0 1 1] 1 1 1 2
    (by decide) (by decide) (fun _ => rfl)

/-! Helper lemma characterizing the two possible outcomes of a training
step: an error with no optimizer-apply events, or the full result dict with
exactly the three apply events of the source. -/

theorem trainStep_cases {T : Type} (cfg : Config T) (gm : Option (GlobalModel T))
    (rgb braw : T) :
    (∃ e, trainStep cfg gm rgb braw = (Except.error e, [])) ∨
    (∃ o r a, trainStep cfg gm rgb braw =
      (Except.ok ([("rpn_objectness", o), ("rpn_regression", r),
          ("align_regression", a)] ++
        metricNames.map (fun nm => (nm, cfg.metricResult nm))),
       [ApplyEvent.mk "backbone" (rpnTotalLoss o r cfg.lmbda cfg.anchors.length),
        ApplyEvent.mk "rpnetwork" (rpnTotalLoss o r cfg.lmbda cfg.anchors.length),
        ApplyEvent.mk "fastrcnn" a])) := by
  unfold trainStep
  dsimp only
  repeat' split
  all_goals first
    | exact Or.inl ⟨_, rfl⟩
    | exact Or.inr ⟨_, _, _, rfl⟩

/-- Helper lemma: the first two optimizer-apply events agree between two runs
of the step that differ only in the module-level `model` binding (hence only
in the refinement-loss computation), provided both runs complete. -/
theorem trainStep_take2_eq {T : Type} (cfg : Config T)
    (gm gm' : Option (GlobalModel T)) (rgb braw : T)
    (h : ∃ out, (trainStep cfg gm rgb braw).1 = Except.ok out)
    (h' : ∃ out, (trainStep cfg gm' rgb braw).1 = Except.ok out) :
    (trainStep cfg gm rgb braw).2.take 2 =
      (trainStep cfg gm' rgb braw).2.take 2 := by
  obtain ⟨out, hout⟩ := h
  obtain ⟨out', hout'⟩ := h'
  unfold trainStep at hout hout' ⊢
  dsimp only at hout hout' ⊢
  split at hout
  · simp at hout
  · next o heq =>
    simp only [heq] at hout' ⊢
    split at hout
    · simp at hout
    · next r heq2 =>
      simp only [heq2] at hout' ⊢
      split at hout
      · simp at hout
      · split at hout
        · simp at hout
        · split at hout'
          · simp at hout'
          · split at hout'
            · simp at hout'
            · rfl

/-- C4: the step is atomic with respect to optimizer updates — whenever it
raises (in particular when a loss computation fails) no apply-gradients event
has occurred, and in every run the event list is either empty or exactly the
three applies of a completed step. -/
theorem trainStep_atomic {T : Type} (cfg : Config T)
    (gm : Option (GlobalModel T)) (rgb braw : T) :
    ((∃ e, (trainStep cfg gm rgb braw).1 = Except.error e) →
      (trainStep cfg gm rgb braw).2 = []) ∧
    ((trainStep cfg gm rgb braw).2 = [] ∨
      ∃ l a, (trainStep cfg gm rgb braw).2 =
        [ApplyEvent.mk "backbone" l, ApplyEvent.mk "rpnetwork" l,
         ApplyEvent.mk "fastrcnn" a]) := by
  rcases trainStep_cases cfg gm rgb braw with ⟨e, he⟩ | ⟨o, r, a, hok⟩
  · rw [he]
    exact ⟨fun _ => rfl, Or.inl rfl⟩
  · rw [hok]
    refine ⟨fun hc => ?_, Or.inr ⟨_, _, rfl⟩⟩
    obtain ⟨e, he2⟩ := hc
    simp at he2

/-- C6: a completed step performs exactly three optimizer applies over the
three distinct weight sets — backbone and proposal network from the proposal
total loss, refinement network from the refinement loss — and the backbone
and proposal-network updates are unchanged when the refinement loss source
(the global `model` object) is replaced, so the refinement loss has no
effect on them. -/
theorem trainStep_gradient_independence {T : Type} (cfg : Config T)
    (g g' : GlobalModel T) (rgb braw : T)
    (h : ∃ out, (trainStep cfg (some g) rgb braw).1 = Except.ok out)
    (h' : ∃ out, (trainStep cfg (some g') rgb braw).1 = Except.ok out) :
    ∃ tot al al',
      (trainStep cfg (some g) rgb braw).2 =
        [ApplyEvent.mk "backbone" tot, ApplyEvent.mk "rpnetwork" tot,
         ApplyEvent.mk "fastrcnn" al] ∧
      (trainStep cfg (some g') rgb braw).2 =
        [ApplyEvent.mk "backbone" tot, ApplyEvent.mk "rpnetwork" tot,
         ApplyEvent.mk "fastrcnn" al'] := by
  have htake := trainStep_take2_eq cfg (some g) (some g') rgb braw h h'
  rcases trainStep_cases cfg (some g) rgb braw with ⟨e, he⟩ | ⟨o, r, a, hok⟩
  · obtain ⟨out, hout⟩ := h
    rw [he] at hout
    simp at hout
  rcases trainStep_cases cfg (some g') rgb braw with ⟨e, he'⟩ | ⟨o', r', a', hok'⟩
  · obtain ⟨out, hout⟩ := h'
    rw [he'] at hout
    simp at hout
  rw [hok, hok'] at htake
  simp only [List.take_succ_cons, List.take_zero, List.cons.injEq,
    ApplyEvent.mk.injEq, and_true, true_and] at htake
  refine ⟨rpnTotalLoss o r cfg.lmbda cfg.anchors.length, a, a', ?_, ?_⟩
  · rw [hok]
  · rw [hok']
    rw [htake.1]

/-- C8: in every completed step the loss used for both the backbone and the
proposal-network gradient equals
`objectness_loss / 256 + lambda * regression_loss / total_anchor_count`,
where the two losses are the reported proposal losses and
`total_anchor_count` is the size of the fixed anchor set. -/
theorem trainStep_proposal_total_loss {T : Type} (cfg : Config T)
    (gm : Option (GlobalModel T)) (rgb braw : T)
    (h : ∃ out, (trainStep cfg gm rgb braw).1 = Except.ok out) :
    ∃ o r rest, (trainStep cfg gm rgb braw).1 =
        Except.ok (("rpn_objectness", o) :: ("rpn_regression", r) :: rest) ∧
      (trainStep cfg gm rgb braw).2.take 2 =
        [ApplyEvent.mk "backbone"
            (o / 256 + cfg.lmbda * r / (cfg.anchors.length : ℚ)),
         ApplyEvent.mk "rpnetwork"
            (o / 256 + cfg.lmbda * r / (cfg.anchors.length : ℚ))] := by
  rcases trainStep_cases cfg gm rgb braw with ⟨e, he⟩ | ⟨o, r, a, hok⟩
  · obtain ⟨out, hout⟩ := h
    rw [he] at hout
    simp at hout
  · have hform : rpnTotalLoss o r cfg.lmbda cfg.anchors.length =
        o / 256 + cfg.lmbda * r / (cfg.anchors.length : ℚ) := by
      rw [rpnTotalLoss]
      ring
    refine ⟨o, r, ("align_regression", a) ::
      metricNames.map (fun nm => (nm, cfg.metricResult nm)), ?_, ?_⟩
    · rw [hok]
      rfl
    · rw [hok]
      simp [hform]

/-- C9 amended/corrected: every completed training step returns the mapping
whose loss keys are `rpn_objectness`, `rpn_regression` and
`align_regression` (not `proposal_objectness` / `proposal_regression` /
`refinement_regression`), followed by the named running-metric scalars. -/
theorem trainStep_output_keys {T : Type} (cfg : Config T)
    (gm : Option (GlobalModel T)) (rgb braw : T)
    (h : ∃ out, (trainStep cfg gm rgb braw).1 = Except.ok out) :
    ∃ o r a, (trainStep cfg gm rgb braw).1 =
      Except.ok ([("rpn_objectness", o), ("rpn_regression", r),
          ("align_regression", a)] ++
        metricNames.map (fun nm => (nm, cfg.metricResult nm))) := by
  rcases trainStep_cases cfg gm rgb braw with ⟨e, he⟩ | ⟨o, r, a, hok⟩
  · obtain ⟨out, hout⟩ := h
    rw [he] at hout
    simp at hout
  · exact ⟨o, r, a, by rw [hok]⟩

/-! Concrete model configurations over `T = Unit` used to instantiate the
training-step theorems. -/

/-- A minimal concrete model configuration: all collaborators are trivial
and both loss objects always return a value (`loss[0]` yields `1`,
`loss[1]` yields `1`). -/
def unitConfig : Config Unit where
  anchors := []
  anchorPx := [32]
  field := 32
  lmbda := 10
  pool := 1
  tiles := 1
  objDim := 2
  regDim := 4
  toTensor := fun _ => ()
  preprocess := fun _ => ()
  expandDims := fun _ => ()
  filterAnchors := fun _ _ => ([], [])
  sampleAnchors := fun p n => (p, n)
  backbone := fun _ => ()
  rpnetwork := fun _ => (fun _ _ _ _ => 0, fun _ _ _ _ => 0)
  softmax := fun _ => ()
  concatT := fun _ _ => ()
  oneHot := fun _ => ()
  parameterize := fun _ _ => ()
  loss0 := fun _ _ => some 1
  loss1 := fun _ _ => some 1
  toT := fun _ => ()
  unparameterize := fun _ _ => []
  interpBilinear := fun _ => fun _ => []
  fastrcnn := fun _ => ()
  unparameterizeT := fun _ _ => ()
  metricResult := fun _ => 0

/-- Like `unitConfig` but the objectness loss computation fails. -/
def unitConfigFail : Config Unit :=
  { unitConfig with loss0 := fun _ _ => none }

/-- A module-level `model` binding whose regression loss yields `2`. -/
def gmUnit : GlobalModel Unit :=
  GlobalModel.mk (fun _ _ => some 2)

/-- A module-level `model` binding whose regression loss yields `3`. -/
def gmUnit3 : GlobalModel Unit :=
  GlobalModel.mk (fun _ _ => some 3)

/-- Concrete instantiation of `trainStep_atomic`: when the objectness loss
computation fails, no optimizer-apply event occurs. -/
theorem trainStep_atomic_witness :
    (trainStep unitConfigFail (some gmUnit) () ()).2 = [] :=
  (trainStep_atomic unitConfigFail (some gmUnit) () ()).1
    ⟨StepError.lossFailure "rpn_obj_loss", rfl⟩

/-- Concrete instantiation of `trainStep_gradient_independence`: replacing
the refinement loss source (`2` ↦ `3`) leaves the backbone and
proposal-network updates unchanged. -/
theorem trainStep_gradient_independence_witness :
    ∃ tot al al',
      (trainStep unitConfig (some gmUnit) () ()).2 =
        [ApplyEvent.mk "backbone" tot, ApplyEvent.mk "rpnetwork" tot,
         ApplyEvent.mk "fastrcnn" al] ∧
      (trainStep unitConfig (some gmUnit3) () ()).2 =
        [ApplyEvent.mk "backbone" tot, ApplyEvent.mk "rpnetwork" tot,
         ApplyEvent.mk "fastrcnn" al'] :=
  trainStep_gradient_independence unitConfig gmUnit gmUnit3 () ()
    ⟨_, rfl⟩ ⟨_, rfl⟩

/-- Concrete instantiation of `trainStep_proposal_total_loss` at
`unitConfig`. -/
theorem trainStep_proposal_total_loss_witness :
    ∃ o r rest, (trainStep unitConfig (some gmUnit) () ()).1 =
        Except.ok (("rpn_objectness", o) :: ("rpn_regression", r) :: rest) ∧
      (trainStep unitConfig (some gmUnit) () ()).2.take 2 =
        [ApplyEvent.mk "backbone"
            (o / 256 + unitConfig.lmbda * r / (unitConfig.anchors.length : ℚ)),
         ApplyEvent.mk "rpnetwork"
            (o / 256 + unitConfig.lmbda * r / (unitConfig.anchors.length : ℚ))] :=
  trainStep_proposal_total_loss unitConfig (some gmUnit) () () ⟨_, rfl⟩

/-- C9 counterexample: a concrete completed training step returns its loss
scalars under the keys `rpn_objectness`, `rpn_regression` and
`align_regression` — the key `proposal_objectness` demanded by the claim is
not among the returned keys. -/
theorem trainStep_keys_counterexample :
    ((trainStep unitConfig (some gmUnit) () ()).1.map (List.map Prod.fst)) =
      Except.ok ["rpn_objectness", "rpn_regression", "align_regression",
        "mean_iou_rpn", "mean_iou_align", "auc_roc", "pr_roc",
        "true_positives", "false_negatives", "false_positives"] ∧
    "proposal_objectness" ∉ ["rpn_objectness", "rpn_regression",
        "align_regression", "mean_iou_rpn", "mean_iou_align", "auc_roc",
        "pr_roc", "true_positives", "false_negatives", "false_positives"] := by
  constructor
  · rfl
  · decide

/-- Concrete instantiation of `trainStep_output_keys` at `unitConfig`. -/
theorem trainStep_output_keys_witness :
    ∃ o r a, (trainStep unitConfig (some gmUnit) () ()).1 =
      Except.ok ([("rpn_objectness", o), ("rpn_regression", r),
          ("align_regression", a)] ++
        metricNames.map (fun nm => (nm, unitConfig.metricResult nm))) :=
  trainStep_output_keys unitConfig (some gmUnit) () () ⟨_, rfl⟩

end HistomicsDetect
